import Mathlib

/-! Verification of the LIMB force-measurement applications.

This file gives a shallow embedding of the phase-timing, trial-sequencing,
force-normalization and MVC-averaging logic of
`Force_Measurement_LIMBmk4.py` and `MVC_Measurement_LIMB.py`, together with
theorems settling the specified properties.  Times and forces are modelled
as rationals; Python exceptions are modelled with `Option`/`Except`;
mutable GUI state is modelled as an explicit state record with one function
per method. -/

namespace ForceMeasurement

/-! ## Reference force (Force_Measurement_LIMBmk4.py, get_reference_force) -/

/-- Embeds `ForceExperimentTab.get_reference_force` (lines 268-280).
`level` is the trial's %MVC level, parsed from the last two characters of
the trial id; the source computes `mvc_normalized = int(id[-2:]) / 100.0`. -/
def get_reference_force (level : ℕ) (t : ℚ) : ℚ :=
  let mvc_normalized : ℚ := (level : ℚ) / 100
  if 0 ≤ t ∧ t < 10 then 0
  else if 10 ≤ t ∧ t < 15 then mvc_normalized * (t - 10) / 5
  else if 15 ≤ t ∧ t < 25 then mvc_normalized
  else if 25 ≤ t ∧ t < 30 then mvc_normalized * (1 - (t - 25) / 5)
  else 0

/-- C2: for every cycle time t and %MVC level, `get_reference_force` is the
piecewise-linear trapezoid with target fraction level/100: it is 0 on
[0,10), rises linearly from 0 to level/100 on [10,15), equals level/100 on
[15,25), falls linearly from level/100 to 0 on [25,30), and is 0 elsewhere. -/
theorem get_reference_force_trapezoid (level : ℕ) (t : ℚ) :
    (0 ≤ t → t < 10 → get_reference_force level t = 0) ∧
    (10 ≤ t → t < 15 →
      get_reference_force level t = (level : ℚ) / 100 * ((t - 10) / 5)) ∧
    (15 ≤ t → t < 25 → get_reference_force level t = (level : ℚ) / 100) ∧
    (25 ≤ t → t < 30 →
      get_reference_force level t = (level : ℚ) / 100 * (1 - (t - 25) / 5)) ∧
    (t < 0 ∨ 30 ≤ t → get_reference_force level t = 0) := by
  unfold get_reference_force
  refine ⟨?_, ?_, ?_, ?_, ?_⟩
  · intro h1 h2
    rw [if_pos ⟨h1, h2⟩]
  · intro h1 h2
    rw [if_neg (by rintro ⟨-, h⟩; linarith), if_pos ⟨h1, h2⟩]
    ring
  · intro h1 h2
    rw [if_neg (by rintro ⟨-, h⟩; linarith),
      if_neg (by rintro ⟨-, h⟩; linarith), if_pos ⟨h1, h2⟩]
  · intro h1 h2
    rw [if_neg (by rintro ⟨-, h⟩; linarith),
      if_neg (by rintro ⟨-, h⟩; linarith),
      if_neg (by rintro ⟨-, h⟩; linarith), if_pos ⟨h1, h2⟩]
  · rintro (h | h) <;>
      rw [if_neg (by rintro ⟨h1, h2⟩; linarith),
        if_neg (by rintro ⟨h1, h2⟩; linarith),
        if_neg (by rintro ⟨h1, h2⟩; linarith),
        if_neg (by rintro ⟨h1, h2⟩; linarith)]

/-- Witness for C2: each branch of the trapezoid theorem evaluated at a
concrete cycle time with level 40. -/
theorem get_reference_force_trapezoid_w :
    get_reference_force 40 3 = 0 ∧
    get_reference_force 40 12 = (40 : ℚ) / 100 * ((12 - 10) / 5) ∧
    get_reference_force 40 20 = (40 : ℚ) / 100 ∧
    get_reference_force 40 27 = (40 : ℚ) / 100 * (1 - (27 - 25) / 5) ∧
    get_reference_force 40 35 = 0 :=
  ⟨(get_reference_force_trapezoid 40 3).1 (by norm_num) (by norm_num),
   (get_reference_force_trapezoid 40 12).2.1 (by norm_num) (by norm_num),
   (get_reference_force_trapezoid 40 20).2.2.1 (by norm_num) (by norm_num),
   (get_reference_force_trapezoid 40 27).2.2.2.1 (by norm_num) (by norm_num),
   (get_reference_force_trapezoid 40 35).2.2.2.2 (Or.inr (by norm_num))⟩

/-! ## Force normalization (Force_Measurement_LIMBmk4.py, update_plot and
load_last_mvc) -/

/-- A stored MVC cell as `load_last_mvc` sees it: the CSV column is either
absent (`dict.get` returns the default string `'100'`), parses as a float,
or raises `ValueError` in `float(...)`. -/
inductive MVCCell where
  | missing
  | numeric (q : ℚ)
  | malformed

/-- Embeds one `try: ... float(mvc_data.get(key, '100')) except ValueError:
... = 100` block of `load_last_mvc` (lines 287-298). -/
def load_grip_mvc : MVCCell → ℚ
  | MVCCell.missing => 100
  | MVCCell.numeric q => q
  | MVCCell.malformed => 100

/-- Python division: raises `ZeroDivisionError` (modelled as `none`) when
the denominator is zero. -/
def pyDiv (a b : ℚ) : Option ℚ := if b = 0 then none else some (a / b)

/-- Embeds the normalization step of `update_plot` (lines 469-472):
`new_force = (raw_force - MIN_FORCE) / (MAX_FORCE - MIN_FORCE)` with
`MIN_FORCE = 0`, then `new_force = max(0, min(new_force, 1))`. -/
def normalized_force (raw_force MAX_FORCE : ℚ) : Option ℚ :=
  match pyDiv (raw_force - 0) (MAX_FORCE - 0) with
  | none => none
  | some v => some (max 0 (min v 1))

/-- C3 (code bug): a stored MVC value of 0 parses successfully and is not
replaced by the fallback default, and the normalization step then divides
by zero — `none` models Python's `ZeroDivisionError`, which crashes the
tick — whereas a missing calibration entry does fall back to the default
of 100 and normalizes without error. -/
theorem normalized_force_zero_reference_raises :
    load_grip_mvc (MVCCell.numeric 0) = 0 ∧
    normalized_force 5 (load_grip_mvc (MVCCell.numeric 0)) = none ∧
    load_grip_mvc MVCCell.missing = 100 ∧
    normalized_force 5 (load_grip_mvc MVCCell.missing) = some (1 / 20) := by
  refine ⟨rfl, ?_, rfl, ?_⟩
  · simp [normalized_force, load_grip_mvc, pyDiv]
  · have h : ((100 : ℚ)) ≠ 0 := by norm_num
    simp only [normalized_force, load_grip_mvc, pyDiv, sub_zero, if_neg h]
    norm_num

/-- C6: with a positive MVC reference, the tick computation succeeds and
yields clamp(raw/reference, 0, 1), which always lies in [0,1]. -/
theorem normalized_force_clamped (raw_force ref : ℚ) (h : 0 < ref) :
    normalized_force raw_force ref =
      some (max 0 (min (raw_force / ref) 1)) ∧
    0 ≤ max 0 (min (raw_force / ref) 1) ∧
    max 0 (min (raw_force / ref) 1) ≤ 1 := by
  refine ⟨?_, le_max_left 0 _, max_le (by norm_num) (min_le_right _ 1)⟩
  have hne : ref ≠ 0 := ne_of_gt h
  simp [normalized_force, pyDiv, sub_zero, hne]

/-- Witness for C6: a negative raw sample and a raw sample above the
reference both yield a clamped value in [0,1]. -/
theorem normalized_force_clamped_w :
    normalized_force (-3) 50 = some (max 0 (min ((-3 : ℚ) / 50) 1)) ∧
    normalized_force 200 50 = some (max 0 (min ((200 : ℚ) / 50) 1)) :=
  ⟨(normalized_force_clamped (-3) 50 (by norm_num)).1,
   (normalized_force_clamped 200 50 (by norm_num)).1⟩

/-! ## MVC averaging (MVC_Measurement_LIMB.py, finish_experiment) -/

/-- Embeds `[f for t, f in zip(self.time_data, self.force_data) if lo <= t
<= hi]` over the parallel time/force sample lists. -/
def trial_window_forces (lo hi : ℚ) (time_data force_data : List ℚ) :
    List ℚ :=
  ((time_data.zip force_data).filter
    (fun p => decide (lo ≤ p.1 ∧ p.1 ≤ hi))).map Prod.snd

/-- Embeds `sum(forces) / len(forces) if forces else None`
(finish_experiment, lines 410-411). -/
def list_avg (l : List ℚ) : Option ℚ :=
  if l = [] then none else some (l.sum / l.length)

/-- Embeds the overall-average selection of `finish_experiment`
(lines 412-415): the mean of the two trial averages when both exist,
otherwise whichever is available, otherwise `None`. -/
def overall_avg (time_data force_data : List ℚ) : Option ℚ :=
  match list_avg (trial_window_forces 5 10 time_data force_data),
        list_avg (trial_window_forces 20 25 time_data force_data) with
  | some x, some y => some ((x + y) / 2)
  | some x, none => some x
  | none, some y => some y
  | none, none => none

/-- C5: each trial average is the arithmetic mean of the samples in that
trial's window (5-10 s, resp. 20-25 s), the overall MVC is the mean of the
two trial averages, and if exactly one window is empty the overall MVC is
the other window's average. -/
theorem mvc_trial_averages (time_data force_data : List ℚ) :
    (trial_window_forces 5 10 time_data force_data ≠ [] →
      list_avg (trial_window_forces 5 10 time_data force_data) =
        some ((trial_window_forces 5 10 time_data force_data).sum /
          (trial_window_forces 5 10 time_data force_data).length)) ∧
    (trial_window_forces 20 25 time_data force_data ≠ [] →
      list_avg (trial_window_forces 20 25 time_data force_data) =
        some ((trial_window_forces 20 25 time_data force_data).sum /
          (trial_window_forces 20 25 time_data force_data).length)) ∧
    (trial_window_forces 5 10 time_data force_data ≠ [] →
      trial_window_forces 20 25 time_data force_data ≠ [] →
      overall_avg time_data force_data =
        some (((trial_window_forces 5 10 time_data force_data).sum /
            (trial_window_forces 5 10 time_data force_data).length +
          (trial_window_forces 20 25 time_data force_data).sum /
            (trial_window_forces 20 25 time_data force_data).length) / 2)) ∧
    (trial_window_forces 5 10 time_data force_data = [] →
      trial_window_forces 20 25 time_data force_data ≠ [] →
      overall_avg time_data force_data =
        some ((trial_window_forces 20 25 time_data force_data).sum /
          (trial_window_forces 20 25 time_data force_data).length)) ∧
    (trial_window_forces 5 10 time_data force_data ≠ [] →
      trial_window_forces 20 25 time_data force_data = [] →
      overall_avg time_data force_data =
        some ((trial_window_forces 5 10 time_data force_data).sum /
          (trial_window_forces 5 10 time_data force_data).length)) := by
  refine ⟨?_, ?_, ?_, ?_, ?_⟩
  · intro h1; simp [list_avg, h1]
  · intro h2; simp [list_avg, h2]
  · intro h1 h2; simp [overall_avg, list_avg, h1, h2]
  · intro h1 h2; simp [overall_avg, list_avg, h1, h2]
  · intro h1 h2; simp [overall_avg, list_avg, h1, h2]

/-- Witness for C5: synthetic samples at t = 6, 7 (window 1) and t = 21
(window 2); the overall MVC is the mean of the two window averages. -/
theorem mvc_trial_averages_w :
    overall_avg [6, 7, 21] [10, 20, 30] = some (45 / 2) := by
  have h := (mvc_trial_averages [6, 7, 21] [10, 20, 30]).2.2.1
    (by decide) (by decide)
  rw [h]
  norm_num [trial_window_forces]

/-- Embeds the label formatting choice of `update_mvc_label`: a missing
value renders as `"--"`, a present value renders with an `" N"` suffix. -/
def fmt_force_opt (o : Option ℚ) : String :=
  match o with
  | none => "--"
  | some v => toString v ++ " N"

/-- Embeds `self.results[motion] = overall_avg if overall_avg is not None
else 0` (finish_experiment, line 420). -/
def stored_result (o : Option ℚ) : ℚ :=
  match o with
  | none => 0
  | some v => v

/-- C10: when both 5-second measurement windows contain zero samples,
`finish_experiment` completes (the averages are guarded, so no division by
zero is attempted), the overall average is reported as `"--"` in the
label, and the motion's stored result is 0. -/
theorem finish_experiment_no_samples (time_data force_data : List ℚ)
    (h1 : trial_window_forces 5 10 time_data force_data = [])
    (h2 : trial_window_forces 20 25 time_data force_data = []) :
    overall_avg time_data force_data = none ∧
    fmt_force_opt (overall_avg time_data force_data) = "--" ∧
    stored_result (overall_avg time_data force_data) = 0 := by
  have hnone : overall_avg time_data force_data = none := by
    simp [overall_avg, list_avg, h1, h2]
  exact ⟨hnone, by rw [hnone]; rfl, by rw [hnone]; rfl⟩

/-- Witness for C10: a single sample at t = 12 lies in neither window, so
the overall average is missing and the stored result is 0. -/
theorem finish_experiment_no_samples_w :
    overall_avg [12] [50] = none ∧
    fmt_force_opt (overall_avg [12] [50]) = "--" ∧
    stored_result (overall_avg [12] [50]) = 0 :=
  finish_experiment_no_samples [12] [50] (by decide) (by decide)

/-! ## Sensor construction (MVC_Measurement_LIMB.py, GDXForceSensor) -/

/-- Embeds the control flow of `GDXForceSensor.__init__` (lines 20-36):
`open` may raise, in which case the handler prints the error and sets
`self.gdx_device = None`; afterwards `select_sensors` is invoked
unconditionally on `self.gdx_device`, which raises `AttributeError` when
the device is `None`.  On success, construction completes with the device
enabled (`true`). -/
def gdx_force_sensor_init (openRaises : Bool) : Except String Bool :=
  let gdx_device : Option Unit := if openRaises then none else some ()
  match gdx_device with
  | none => Except.error "AttributeError"
  | some _ => Except.ok true

/-- C7 (code bug): when opening the device fails, the except-handler sets
the device to `None`, but the very next statement dereferences it, so the
constructor raises `AttributeError` and construction aborts — the sensor
is not left in a usable disabled state.  A successful open completes
construction. -/
theorem gdx_sensor_init_open_failure :
    gdx_force_sensor_init true = Except.error "AttributeError" ∧
    gdx_force_sensor_init false = Except.ok true :=
  ⟨rfl, rfl⟩

/-! ## Sensor shutdown ordering (MVC_Measurement_LIMB.py, stop and
stop_measurement) -/

/-- The externally visible steps taken during shutdown. -/
inductive ShutdownAction where
  | timerStop
  | blinkTimerStop
  | setGuiStopEvent
  | joinGuiThread
  | setSensorStopEvent
  | joinSensorThread
  | deviceStop
  | deviceClose
deriving DecidableEq

/-- Embeds the statement order of `GDXForceSensor.stop` (lines 55-63):
set the stop event, join the reader thread, then stop and close the
device. -/
def gdx_sensor_stop_trace : List ShutdownAction :=
  [ShutdownAction.setSensorStopEvent, ShutdownAction.joinSensorThread,
   ShutdownAction.deviceStop, ShutdownAction.deviceClose]

/-- Embeds the statement order of `MVCExperiment.stop_measurement`
(lines 375-388): stop the GUI timers, set the GUI-thread stop event, join
the GUI's sensor-reading thread, then call `force_sensor.stop()` (whose
body is `gdx_sensor_stop_trace`). -/
def stop_measurement_trace : List ShutdownAction :=
  [ShutdownAction.timerStop, ShutdownAction.blinkTimerStop,
   ShutdownAction.setGuiStopEvent, ShutdownAction.joinGuiThread] ++
    gdx_sensor_stop_trace

/-- C9: in the shutdown procedure, the stop flag is signalled first, the
worker thread is joined next, and only after the join do the device stop
and close run — each step occurring exactly once, so the device is never
closed before the worker thread has exited. -/
theorem shutdown_order :
    gdx_sensor_stop_trace.indexOf ShutdownAction.setSensorStopEvent <
      gdx_sensor_stop_trace.indexOf ShutdownAction.joinSensorThread ∧
    gdx_sensor_stop_trace.indexOf ShutdownAction.joinSensorThread <
      gdx_sensor_stop_trace.indexOf ShutdownAction.deviceStop ∧
    gdx_sensor_stop_trace.indexOf ShutdownAction.deviceStop <
      gdx_sensor_stop_trace.indexOf ShutdownAction.deviceClose ∧
    gdx_sensor_stop_trace.count ShutdownAction.joinSensorThread = 1 ∧
    gdx_sensor_stop_trace.count ShutdownAction.deviceClose = 1 ∧
    stop_measurement_trace.indexOf ShutdownAction.setSensorStopEvent <
      stop_measurement_trace.indexOf ShutdownAction.joinSensorThread ∧
    stop_measurement_trace.indexOf ShutdownAction.joinSensorThread <
      stop_measurement_trace.indexOf ShutdownAction.deviceStop ∧
    stop_measurement_trace.indexOf ShutdownAction.deviceStop <
      stop_measurement_trace.indexOf ShutdownAction.deviceClose ∧
    stop_measurement_trace.indexOf ShutdownAction.joinGuiThread <
      stop_measurement_trace.indexOf ShutdownAction.deviceClose ∧
    stop_measurement_trace.count ShutdownAction.deviceStop = 1 ∧
    stop_measurement_trace.count ShutdownAction.deviceClose = 1 := by
  decide

/-! ## Phase-boundary events (Force_Measurement_LIMBmk4.py,
check_phase_boundaries and update_plot)

On every timer tick `update_plot` computes `cycle_time = time_elapsed % 30`
— hence `cycle_time` always lies in `[0, 30)` — and calls
`check_phase_boundaries(cycle_time)`, which walks the `phase_events` list
and logs each event whose boundary has been reached and which is not yet
in the per-trial `phase_events_logged` set. -/

/-- The `(boundary, event)` list of `check_phase_boundaries`
(lines 242-253). -/
def phase_events : List (ℚ × String) :=
  [(0, "RestPhaseStart"), (5, "RestPhaseStop"), (5, "GetReadyStart"),
   (10, "GetReadyStop"), (10, "RampUpPhaseStart"), (15, "RampUpPhaseStop"),
   (15, "HoldPhaseStart"), (25, "HoldPhaseStop"), (25, "RampDownPhaseStart"),
   (30, "RampDownPhaseStop")]

/-- The `for boundary, event in phase_events` loop of
`check_phase_boundaries` (lines 255-258): for each event, if
`cycle_time >= boundary` and the event is not in `phase_events_logged`,
log it and add it to the set.  Returns the events logged by this call, in
order, together with the updated set (modelled as a list queried only for
membership). -/
def checkLoop :
    List (ℚ × String) → ℚ → List String → List String × List String
  | [], _, logged => ([], logged)
  | (boundary, event) :: rest, cycle_time, logged =>
      if boundary ≤ cycle_time ∧ event ∉ logged then
        let r := checkLoop rest cycle_time (event :: logged)
        (event :: r.1, r.2)
      else checkLoop rest cycle_time logged

/-- Embeds `ForceExperimentTab.check_phase_boundaries`. -/
def check_phase_boundaries (cycle_time : ℚ) (logged : List String) :
    List String × List String :=
  checkLoop phase_events cycle_time logged

/-- Fold `check_phase_boundaries` over the cycle times of a sequence of
timer ticks, collecting all logged events in order. -/
def runTicksLog : List ℚ → List String → List String
  | [], _ => []
  | t :: ts, logged =>
      let r := check_phase_boundaries t logged
      r.1 ++ runTicksLog ts r.2

/-- The full per-trial event log: `start_trial` resets
`phase_events_logged` to the empty set, then the ticks run. -/
def trialLog (ticks : List ℚ) : List String := runTicksLog ticks []

lemma checkLoop_state_mono (evs : List (ℚ × String)) :
    ∀ (t : ℚ) (logged : List String) (x : String),
      x ∈ logged → x ∈ (checkLoop evs t logged).2 := by
  induction evs with
  | nil => intro t logged x hx; simpa [checkLoop] using hx
  | cons be rest ih =>
    intro t logged x hx
    obtain ⟨b, e⟩ := be
    by_cases h : b ≤ t ∧ e ∉ logged
    · simp only [checkLoop, if_pos h]
      exact ih t (e :: logged) x (List.mem_cons_of_mem _ hx)
    · simp only [checkLoop, if_neg h]
      exact ih t logged x hx

lemma checkLoop_state_mem (evs : List (ℚ × String)) :
    ∀ (t : ℚ) (logged : List String) (x : String),
      x ∈ (checkLoop evs t logged).2 →
        x ∈ logged ∨ x ∈ evs.map Prod.snd := by
  induction evs with
  | nil => intro t logged x hx; left; simpa [checkLoop] using hx
  | cons be rest ih =>
    intro t logged x hx
    obtain ⟨b, e⟩ := be
    by_cases h : b ≤ t ∧ e ∉ logged
    · simp only [checkLoop, if_pos h] at hx
      rcases ih t (e :: logged) x hx with hx2 | hx2
      · rcases List.mem_cons.mp hx2 with he | hl
        · right; rw [List.map_cons, he]; exact List.mem_cons_self _ _
        · left; exact hl
      · right; rw [List.map_cons]; exact List.mem_cons_of_mem _ hx2
    · simp only [checkLoop, if_neg h] at hx
      rcases ih t logged x hx with hx2 | hx2
      · left; exact hx2
      · right; rw [List.map_cons]; exact List.mem_cons_of_mem _ hx2

/-- One call of the boundary check, from a set that contains exactly the
events with boundary at most `s`: it emits exactly the events with
boundary in `(s, t]`, in list order, and afterwards the set contains
exactly the events with boundary at most `s` or at most `t`. -/
lemma checkLoop_spec (evs : List (ℚ × String)) :
    ∀ (t s : ℚ) (logged : List String),
      (evs.map Prod.snd).Nodup →
      (∀ be ∈ evs, be.2 ∈ logged ↔ be.1 ≤ s) →
      (checkLoop evs t logged).1 =
        (evs.filter (fun be => decide (¬ be.1 ≤ s ∧ be.1 ≤ t))).map
          Prod.snd ∧
      ∀ be ∈ evs,
        (be.2 ∈ (checkLoop evs t logged).2 ↔ (be.1 ≤ s ∨ be.1 ≤ t)) := by
  induction evs with
  | nil =>
    intro t s logged _ _
    exact ⟨by simp [checkLoop], fun be hbe => absurd hbe (List.not_mem_nil be)⟩
  | cons be0 rest ih =>
    intro t s logged hnd hinv
    obtain ⟨b, e⟩ := be0
    rw [List.map_cons, List.nodup_cons] at hnd
    obtain ⟨he_not, hnd_rest⟩ := hnd
    have hinv_head := hinv (b, e) (List.mem_cons_self _ _)
    by_cases hbs : b ≤ s
    · have he_mem : e ∈ logged := hinv_head.mpr hbs
      have hcond : ¬ (b ≤ t ∧ e ∉ logged) := by
        rintro ⟨-, hno⟩; exact hno he_mem
      have hrest_inv : ∀ be ∈ rest, be.2 ∈ logged ↔ be.1 ≤ s :=
        fun be hbe => hinv be (List.mem_cons_of_mem _ hbe)
      obtain ⟨ih1, ih2⟩ := ih t s logged hnd_rest hrest_inv
      constructor
      · simp only [checkLoop, if_neg hcond]
        rw [List.filter_cons, if_neg (by simp [hbs])]
        exact ih1
      · intro be hbe
        rcases List.mem_cons.mp hbe with rfl | hbe2
        · simp only [checkLoop, if_neg hcond]
          exact ⟨fun _ => Or.inl hbs,
            fun _ => checkLoop_state_mono rest t logged e he_mem⟩
        · simp only [checkLoop, if_neg hcond]
          exact ih2 be hbe2
    · have he_notmem : e ∉ logged := fun hm => hbs (hinv_head.mp hm)
      by_cases hbt : b ≤ t
      · have hcond : b ≤ t ∧ e ∉ logged := ⟨hbt, he_notmem⟩
        have hrest_inv : ∀ be ∈ rest, be.2 ∈ (e :: logged) ↔ be.1 ≤ s := by
          intro be hbe
          have hne : be.2 ≠ e := by
            intro hcontra
            have hmem : be.2 ∈ rest.map Prod.snd :=
              List.mem_map_of_mem Prod.snd hbe
            rw [hcontra] at hmem
            exact he_not hmem
          rw [List.mem_cons]
          simp only [hne, false_or]
          exact hinv be (List.mem_cons_of_mem _ hbe)
        obtain ⟨ih1, ih2⟩ := ih t s (e :: logged) hnd_rest hrest_inv
        constructor
        · simp only [checkLoop, if_pos hcond]
          rw [List.filter_cons, if_pos (by simp [hbs, hbt]), List.map_cons]
          rw [ih1]
        · intro be hbe
          rcases List.mem_cons.mp hbe with rfl | hbe2
          · simp only [checkLoop, if_pos hcond]
            exact ⟨fun _ => Or.inr hbt,
              fun _ => checkLoop_state_mono rest t (e :: logged) e
                (List.mem_cons_self _ _)⟩
          · simp only [checkLoop, if_pos hcond]
            exact ih2 be hbe2
      · have hcond : ¬ (b ≤ t ∧ e ∉ logged) := fun hc => hbt hc.1
        have hrest_inv : ∀ be ∈ rest, be.2 ∈ logged ↔ be.1 ≤ s :=
          fun be hbe => hinv be (List.mem_cons_of_mem _ hbe)
        obtain ⟨ih1, ih2⟩ := ih t s logged hnd_rest hrest_inv
        constructor
        · simp only [checkLoop, if_neg hcond]
          rw [List.filter_cons, if_neg (by simp [hbt])]
          exact ih1
        · intro be hbe
          rcases List.mem_cons.mp hbe with rfl | hbe2
          · simp only [checkLoop, if_neg hcond]
            constructor
            · intro hmem
              rcases checkLoop_state_mem rest t logged e hmem with h | h
              · exact absurd h he_notmem
              · exact absurd h he_not
            · rintro (h | h)
              · exact absurd h hbs
              · exact absurd h hbt
          · simp only [checkLoop, if_neg hcond]
            exact ih2 be hbe2

/-- Splitting a boundary-window filter of a list sorted by boundary. -/
lemma filter_window_split (l : List (ℚ × String)) :
    ∀ (s m1 m2 : ℚ), s ≤ m1 → m1 ≤ m2 →
      l.Pairwise (fun x y => x.1 ≤ y.1) →
      l.filter (fun be => decide (¬ be.1 ≤ s ∧ be.1 ≤ m2)) =
        l.filter (fun be => decide (¬ be.1 ≤ s ∧ be.1 ≤ m1)) ++
        l.filter (fun be => decide (¬ be.1 ≤ m1 ∧ be.1 ≤ m2)) := by
  induction l with
  | nil => intro s m1 m2 _ _ _; rfl
  | cons be rest ih =>
    intro s m1 m2 hsm hmm hpw
    obtain ⟨b, e⟩ := be
    rw [List.pairwise_cons] at hpw
    obtain ⟨hall, hpw_rest⟩ := hpw
    have ihr := ih s m1 m2 hsm hmm hpw_rest
    by_cases hb1 : b ≤ s
    · have hs2 : b ≤ m1 := le_trans hb1 hsm
      rw [List.filter_cons, if_neg (by simp [hb1]),
          List.filter_cons, if_neg (by simp [hb1]),
          List.filter_cons, if_neg (by simp [hs2])]
      exact ihr
    · by_cases hb2 : b ≤ m1
      · rw [List.filter_cons, if_pos (by simp [hb1, le_trans hb2 hmm]),
            List.filter_cons, if_pos (by simp [hb1, hb2]),
            List.filter_cons, if_neg (by simp [hb2])]
        rw [ihr]
        rfl
      · by_cases hb3 : b ≤ m2
        · have hrest_first :
              rest.filter (fun x => decide (¬ x.1 ≤ s ∧ x.1 ≤ m1)) = [] := by
            rw [List.filter_eq_nil_iff]
            intro x hx
            simp only [decide_eq_true_eq, not_and, not_le]
            intro _
            exact lt_of_not_le (fun hc => hb2 (le_trans (hall x hx) hc))
          have hrest_congr :
              rest.filter (fun x => decide (¬ x.1 ≤ s ∧ x.1 ≤ m2)) =
                rest.filter (fun x => decide (¬ x.1 ≤ m1 ∧ x.1 ≤ m2)) := by
            apply List.filter_congr
            intro x hx
            have hbx : b ≤ x.1 := hall x hx
            have h1 : ¬ x.1 ≤ s :=
              fun hc => hb1 (le_trans hbx hc)
            have h2 : ¬ x.1 ≤ m1 :=
              fun hc => hb2 (le_trans hbx hc)
            simp [h1, h2]
          rw [List.filter_cons, if_pos (by simp [hb1, hb3]),
              List.filter_cons, if_neg (by simp [hb2]),
              List.filter_cons, if_pos (by simp [hb2, hb3])]
          rw [hrest_first, hrest_congr]
          rfl
        · rw [List.filter_cons, if_neg (by simp [hb3]),
              List.filter_cons, if_neg (by simp [hb2]),
              List.filter_cons, if_neg (by simp [hb3])]
          exact ihr

lemma le_foldl_max (l : List ℚ) : ∀ s : ℚ, s ≤ l.foldl max s := by
  induction l with
  | nil => intro s; exact le_refl s
  | cons a rest ih =>
    intro s
    exact le_trans (le_max_left s a) (ih (max s a))

lemma mem_le_foldl_max (l : List ℚ) :
    ∀ (s t : ℚ), t ∈ l → t ≤ l.foldl max s := by
  induction l with
  | nil => intro s t ht; exact absurd ht (List.not_mem_nil t)
  | cons a rest ih =>
    intro s t ht
    rcases List.mem_cons.mp ht with rfl | ht2
    · exact le_trans (le_max_right s t) (le_foldl_max rest (max s t))
    · exact ih (max s a) t ht2

lemma foldl_max_lt (l : List ℚ) :
    ∀ (s c : ℚ), s < c → (∀ t ∈ l, t < c) → l.foldl max s < c := by
  induction l with
  | nil => intro s c hs _; exact hs
  | cons a rest ih =>
    intro s c hs hall
    exact ih (max s a) c (max_lt hs (hall a (List.mem_cons_self a rest)))
      (fun t ht => hall t (List.mem_cons_of_mem _ ht))

lemma phase_events_names_nodup : (phase_events.map Prod.snd).Nodup := by
  decide

lemma phase_events_sorted :
    phase_events.Pairwise (fun x y => x.1 ≤ y.1) := by decide

lemma phase_inv_empty :
    ∀ be ∈ phase_events, be.2 ∈ ([] : List String) ↔ be.1 ≤ (-1 : ℚ) := by
  decide

/-- Running the boundary check over any sequence of tick cycle times,
starting from a set holding exactly the events with boundary at most `s`,
emits exactly the events with boundary in `(s, max of the ticks]`, in
`phase_events` order. -/
lemma runTicksLog_spec (ticks : List ℚ) :
    ∀ (s : ℚ) (logged : List String),
      (∀ be ∈ phase_events, be.2 ∈ logged ↔ be.1 ≤ s) →
      runTicksLog ticks logged =
        (phase_events.filter
          (fun be => decide (¬ be.1 ≤ s ∧ be.1 ≤ ticks.foldl max s))).map
            Prod.snd := by
  induction ticks with
  | nil =>
    intro s logged _
    have hnil : phase_events.filter
        (fun be => decide (¬ be.1 ≤ s ∧ be.1 ≤ List.foldl max s [])) = [] := by
      rw [List.filter_eq_nil_iff]
      intro be _
      simp only [List.foldl, decide_eq_true_eq, not_and, not_le]
      exact fun h => h
    rw [hnil]
    rfl
  | cons t ts ih =>
    intro s logged hinv
    obtain ⟨hemit, hstate⟩ :=
      checkLoop_spec phase_events t s logged phase_events_names_nodup hinv
    have hinv2 : ∀ be ∈ phase_events,
        be.2 ∈ (checkLoop phase_events t logged).2 ↔ be.1 ≤ max s t := by
      intro be hbe
      exact (hstate be hbe).trans le_max_iff.symm
    have ihr := ih (max s t) (checkLoop phase_events t logged).2 hinv2
    have hcongr : phase_events.filter
          (fun be => decide (¬ be.1 ≤ s ∧ be.1 ≤ t)) =
        phase_events.filter
          (fun be => decide (¬ be.1 ≤ s ∧ be.1 ≤ max s t)) := by
      apply List.filter_congr
      intro x _
      by_cases hxs : x.1 ≤ s
      · simp [hxs]
      · simp [hxs, le_max_iff]
    have hsplit := filter_window_split phase_events s (max s t)
      (ts.foldl max (max s t)) (le_max_left s t)
      (le_foldl_max ts (max s t)) phase_events_sorted
    show (check_phase_boundaries t logged).1 ++
        runTicksLog ts (check_phase_boundaries t logged).2 = _
    rw [check_phase_boundaries, hemit, ihr, hcongr, ← List.map_append,
      ← hsplit, List.foldl_cons]

/-- C1 (amended): for every trial and every sequence of timer ticks whose
cycle times lie in [0,30) (as `time_elapsed % 30` always does) and reach
the final 25-second boundary, the nine phase-boundary events with offsets
below 30 are each logged exactly once, in ascending boundary-offset order;
the tenth event, `RampDownPhaseStop` at offset 30, is never logged, since
its condition `cycle_time >= 30` can never hold. -/
theorem phase_boundaries_nine_once_in_order (ticks : List ℚ)
    (hub : ∀ t ∈ ticks, 0 ≤ t ∧ t < 30)
    (hcov : ∃ t ∈ ticks, 25 ≤ t) :
    trialLog ticks =
      ["RestPhaseStart", "RestPhaseStop", "GetReadyStart", "GetReadyStop",
       "RampUpPhaseStart", "RampUpPhaseStop", "HoldPhaseStart",
       "HoldPhaseStop", "RampDownPhaseStart"] := by
  have hrun := runTicksLog_spec ticks (-1) [] phase_inv_empty
  have hM25 : (25 : ℚ) ≤ ticks.foldl max (-1) := by
    obtain ⟨t, ht, h25⟩ := hcov
    exact le_trans h25 (mem_le_foldl_max ticks (-1) t ht)
  have hM30 : ticks.foldl max (-1) < 30 :=
    foldl_max_lt ticks (-1) 30 (by norm_num) (fun t ht => (hub t ht).2)
  rw [trialLog, hrun]
  set M := ticks.foldl max (-1) with hMdef
  have h0 : (0 : ℚ) ≤ M := by linarith
  have h5 : (5 : ℚ) ≤ M := by linarith
  have h10 : (10 : ℚ) ≤ M := by linarith
  have h15 : (15 : ℚ) ≤ M := by linarith
  have h30 : ¬ (30 : ℚ) ≤ M := not_le.mpr hM30
  simp only [phase_events]
  rw [List.filter_cons,
    if_pos (by simp only [decide_eq_true_eq]; exact ⟨by norm_num, h0⟩),
    List.filter_cons,
    if_pos (by simp only [decide_eq_true_eq]; exact ⟨by norm_num, h5⟩),
    List.filter_cons,
    if_pos (by simp only [decide_eq_true_eq]; exact ⟨by norm_num, h5⟩),
    List.filter_cons,
    if_pos (by simp only [decide_eq_true_eq]; exact ⟨by norm_num, h10⟩),
    List.filter_cons,
    if_pos (by simp only [decide_eq_true_eq]; exact ⟨by norm_num, h10⟩),
    List.filter_cons,
    if_pos (by simp only [decide_eq_true_eq]; exact ⟨by norm_num, h15⟩),
    List.filter_cons,
    if_pos (by simp only [decide_eq_true_eq]; exact ⟨by norm_num, h15⟩),
    List.filter_cons,
    if_pos (by simp only [decide_eq_true_eq]; exact ⟨by norm_num, hM25⟩),
    List.filter_cons,
    if_pos (by simp only [decide_eq_true_eq]; exact ⟨by norm_num, hM25⟩),
    List.filter_cons,
    if_neg (by simp only [decide_eq_true_eq]; rintro ⟨-, hc⟩; exact h30 hc),
    List.filter_nil]
  rfl

/-- Witness for C1 (amended): a concrete covering tick sequence — with a
final wrapped-around tick, as happens when the next trial's first tick has
a small cycle time — produces exactly the nine sub-30 events in order. -/
theorem phase_boundaries_nine_once_in_order_w :
    trialLog [0, 5, 10, 15, 25, 29, 2] =
      ["RestPhaseStart", "RestPhaseStop", "GetReadyStart", "GetReadyStop",
       "RampUpPhaseStart", "RampUpPhaseStop", "HoldPhaseStart",
       "HoldPhaseStop", "RampDownPhaseStart"] :=
  phase_boundaries_nine_once_in_order [0, 5, 10, 15, 25, 29, 2]
    (by decide) (by decide)

/-- Counterexample to C1 as stated: on a tick sequence densely covering a
whole 30-second cycle, only nine of the ten phase-boundary events are ever
logged — `RampDownPhaseStop` (offset 30) is logged zero times, not once,
because `cycle_time = time_elapsed % 30` is always below 30. -/
theorem phase_boundaries_counterexample :
    trialLog [0, 4, 6, 11, 14, 16, 24, 26, 29, 1] =
      ["RestPhaseStart", "RestPhaseStop", "GetReadyStart", "GetReadyStop",
       "RampUpPhaseStart", "RampUpPhaseStop", "HoldPhaseStart",
       "HoldPhaseStop", "RampDownPhaseStart"] ∧
    (trialLog [0, 4, 6, 11, 14, 16, 24, 26, 29, 1]).count
      "RampDownPhaseStop" = 0 := by
  constructor <;> decide

/-! ## Trial sequencing (Force_Measurement_LIMBmk4.py, __init__,
update_plot, start_trial, start_break, prepare_next_array,
start_experiment, stop_experiment)

The sequencing-relevant mutable attributes of `ForceExperimentTab` are
collected in `ExpState`; each method becomes a function on it.  A timer
tick only runs `update_plot` while the Qt timer is running
(`timer.start`/`timer.stop`); the 5-minute single-shot break timer is
modelled by the `breakPending` flag and the `break_fire` event. -/

/-- The grip types of the trial-generation loop (line 34). -/
def gripTypes : List String := ["IndexPinch", "MiddlePinch", "FullGrasp"]

/-- The %MVC levels of the trial-generation loop (line 35). -/
def mvcLevels : List String := ["20", "40", "60", "80"]

/-- The `conditions` list built by the nested loops of `__init__`
(lines 33-37): for each grip, for each level, five copies of
`f"{grip}{mvc}"`. -/
def trialConditions : List String :=
  gripTypes.flatMap (fun grip =>
    mvcLevels.flatMap (fun mvc => List.replicate 5 (grip ++ mvc)))

/-- Sequencing-relevant state of `ForceExperimentTab`. -/
structure ExpState where
  trialArray1 : List String
  trialArray2 : List String
  currentSection : ℕ
  usingArray2 : Bool
  currentTrialIndex : ℕ
  trialStartTime : ℚ
  timeElapsed : ℚ
  experimentRunning : Bool
  experimentEnded : Bool
  timerRunning : Bool
  trialInProgress : Bool
  breakPending : Bool
  eventLog : List (ℕ × String)

/-- `self.current_trial_array`: `trial_array1` until `prepare_next_array`
switches to `trial_array2`. -/
def currentArray (s : ExpState) : List String :=
  if s.usingArray2 then s.trialArray2 else s.trialArray1

/-- Embeds `log_event` (lines 261-266): append a `(section, event)` row to
the CSV. -/
def logEvent (s : ExpState) (ev : String) : ExpState :=
  { s with eventLog := s.eventLog ++ [(s.currentSection, ev)] }

/-- Embeds `stop_experiment` (lines 370-384): guarded by the
`experiment_ended` latch, it logs `SectionStop` once, sets the latch,
clears `experiment_running` and stops the timer. -/
def stop_experiment (s : ExpState) : ExpState :=
  if s.experimentRunning = false ∨ s.experimentEnded = true then s
  else
    let s1 := logEvent s "SectionStop"
    { s1 with experimentEnded := true, experimentRunning := false,
              timerRunning := false }

/-- Embeds `start_break` (lines 387-394): log `SectionStop` and
`BreakStart`, stop the timer, and schedule the single-shot 5-minute timer
(`breakPending`). -/
def start_break (s : ExpState) : ExpState :=
  let s1 := logEvent (logEvent s "SectionStop") "BreakStart"
  { s1 with timerRunning := false, breakPending := true }

/-- Embeds `prepare_next_array` (lines 396-435): log `BreakStop`, move to
section 2, switch to the second trial array with index 0, and reset the
clocks; the timer stays stopped until Start is pressed. -/
def prepare_next_array (s : ExpState) : ExpState :=
  let s1 := logEvent s "BreakStop"
  { s1 with currentSection := 2, usingArray2 := true, currentTrialIndex := 0,
            trialStartTime := 0, timeElapsed := 0, breakPending := false }

/-- Embeds `start_trial` (lines 211-234): guarded against duplicate
starts, it logs `TrialStart` and records the trial start time. -/
def start_trial (s : ExpState) : ExpState :=
  if s.experimentRunning = false ∨ s.trialInProgress = true then s
  else
    let s1 := logEvent s "TrialStart"
    { s1 with trialInProgress := true, trialStartTime := s.timeElapsed }

/-- Embeds `start_experiment` (lines 354-368): log `SectionStart`, set
`experiment_running`, reset the clocks and start the timer. -/
def start_experiment (s : ExpState) : ExpState :=
  let s1 := logEvent s "SectionStart"
  { s1 with experimentRunning := true, trialStartTime := 0, timeElapsed := 0,
            timerRunning := true }

/-- Embeds the sequencing logic of `update_plot` (lines 438-508): bail out
if the experiment is not running; record the new elapsed time; bail out if
the sensor read failed; on trial completion (elapsed-in-trial ≥ 30) log
`TrialEnd`, advance the index, and either enter the break (first block),
stop the experiment (second block), or start the next trial. -/
def update_plot (s : ExpState) (now : ℚ) (readOk : Bool) : ExpState :=
  if s.experimentRunning = false then s
  else
    let s1 := { s with timeElapsed := now }
    if readOk = false then s1
    else if 30 ≤ now - s1.trialStartTime then
      let s2 := logEvent s1 "TrialEnd"
      let s3 := { s2 with trialInProgress := false,
                          currentTrialIndex := s2.currentTrialIndex + 1 }
      if (currentArray s3).length ≤ s3.currentTrialIndex then
        if s3.usingArray2 = false then start_break s3 else stop_experiment s3
      else start_trial s3
    else s1

/-- A Qt timer timeout: `update_plot` runs only while the timer is
running. -/
def tick (s : ExpState) (now : ℚ) (readOk : Bool) : ExpState :=
  if s.timerRunning = true then update_plot s now readOk else s

/-- The single-shot break timer firing: runs `prepare_next_array` only if
it was scheduled by `start_break`. -/
def break_fire (s : ExpState) : ExpState :=
  if s.breakPending = true then prepare_next_array s else s

/-- Fold a sequence of timer ticks (each an elapsed time and a sensor
read-success flag) over the state. -/
def runTicks (s : ExpState) (ticks : List (ℚ × Bool)) : ExpState :=
  ticks.foldl (fun st p => tick st p.1 p.2) s

/-- The state built by `__init__` (lines 20-209): section 1, first trial
array active, index 0, nothing running, empty event log. -/
def initState (a1 a2 : List String) : ExpState :=
  { trialArray1 := a1, trialArray2 := a2, currentSection := 1,
    usingArray2 := false, currentTrialIndex := 0, trialStartTime := 0,
    timeElapsed := 0, experimentRunning := false, experimentEnded := false,
    timerRunning := false, trialInProgress := false, breakPending := false,
    eventLog := [] }

/-- A full session: Start is pressed, the first block's ticks run, the
break timer fires, Start is pressed again, the second block's ticks run. -/
def runSession (a1 a2 : List String) (t1 t2 : List (ℚ × Bool)) : ExpState :=
  runTicks
    (start_experiment (break_fire (runTicks (start_experiment
      (initState a1 a2)) t1))) t2

/-- Number of rows of the event log recording the given event. -/
def countEvent (log : List (ℕ × String)) (ev : String) : ℕ :=
  (log.filter (fun p => decide (p.2 = ev))).length

/-- Number of session-termination records: `SectionStop` rows written in
section 2 (the termination path of the second block). -/
def countTermination (log : List (ℕ × String)) : ℕ :=
  (log.filter (fun p => decide (p.1 = 2 ∧ p.2 = "SectionStop"))).length

/-- C8: each trial block is a permutation of the fixed multiset generated
at session construction — 60 identifiers, exactly 5 for each of the 12
grip-type/%MVC-level combinations (`random.shuffle` permutes in place) —
and no session operation (tick, break timer, Start, stop, break entry,
array switch, trial start) ever changes either block's contents. -/
theorem trial_blocks_fixed (blk : List String)
    (hperm : blk.Perm trialConditions) :
    blk.length = 60 ∧
    (∀ g ∈ gripTypes, ∀ m ∈ mvcLevels, blk.count (g ++ m) = 5) ∧
    (∀ (s : ExpState) (now : ℚ) (ok : Bool),
      (tick s now ok).trialArray1 = s.trialArray1 ∧
      (tick s now ok).trialArray2 = s.trialArray2) ∧
    (∀ s : ExpState,
      (break_fire s).trialArray1 = s.trialArray1 ∧
      (break_fire s).trialArray2 = s.trialArray2 ∧
      (start_experiment s).trialArray1 = s.trialArray1 ∧
      (start_experiment s).trialArray2 = s.trialArray2 ∧
      (stop_experiment s).trialArray1 = s.trialArray1 ∧
      (stop_experiment s).trialArray2 = s.trialArray2 ∧
      (start_break s).trialArray1 = s.trialArray1 ∧
      (start_break s).trialArray2 = s.trialArray2 ∧
      (prepare_next_array s).trialArray1 = s.trialArray1 ∧
      (prepare_next_array s).trialArray2 = s.trialArray2 ∧
      (start_trial s).trialArray1 = s.trialArray1 ∧
      (start_trial s).trialArray2 = s.trialArray2) := by
  refine ⟨?_, ?_, ?_, ?_⟩
  · rw [hperm.length_eq]
    decide
  · intro g hg m hm
    rw [hperm.count_eq]
    have hc : ∀ x ∈ gripTypes, ∀ y ∈ mvcLevels,
        trialConditions.count (x ++ y) = 5 := by decide
    exact hc g hg m hm
  · intro s now ok
    constructor <;>
      (simp only [tick, update_plot, start_break, stop_experiment,
        start_trial, logEvent]) <;>
      (first | rfl | (split_ifs <;> rfl))
  · intro s
    refine ⟨?_, ?_, ?_, ?_, ?_, ?_, ?_, ?_, ?_, ?_, ?_, ?_⟩ <;>
      (simp only [break_fire, start_experiment, stop_experiment,
        start_break, prepare_next_array, start_trial, logEvent]) <;>
      (first | rfl | (split_ifs <;> rfl))

/-- Witness for C8: the unshuffled `conditions` list itself (the identity
permutation) has 60 entries with 5 copies of each combination, and a
concrete tick leaves a concrete state's blocks unchanged. -/
theorem trial_blocks_fixed_w :
    trialConditions.length = 60 ∧
    trialConditions.count ("IndexPinch" ++ "20") = 5 ∧
    (tick (initState trialConditions trialConditions) 3 true).trialArray1 =
      (initState trialConditions trialConditions).trialArray1 :=
  ⟨(trial_blocks_fixed trialConditions (List.Perm.refl _)).1,
   (trial_blocks_fixed trialConditions (List.Perm.refl _)).2.1
     "IndexPinch" (by decide) "20" (by decide),
   ((trial_blocks_fixed trialConditions (List.Perm.refl _)).2.2.1
     (initState trialConditions trialConditions) 3 true).1⟩

lemma countEvent_append_single (log : List (ℕ × String)) (sec : ℕ)
    (e ev : String) :
    countEvent (log ++ [(sec, e)]) ev =
      countEvent log ev + (if e = ev then 1 else 0) := by
  by_cases h : e = ev <;>
    simp [countEvent, List.filter_append, List.filter_cons, List.filter_nil, h]

lemma countTermination_append_single (log : List (ℕ × String)) (sec : ℕ)
    (e : String) :
    countTermination (log ++ [(sec, e)]) =
      countTermination log +
        (if sec = 2 ∧ e = "SectionStop" then 1 else 0) := by
  by_cases h : sec = 2 ∧ e = "SectionStop" <;>
    simp [countTermination, List.filter_append, List.filter_cons,
      List.filter_nil, h]

lemma countEvent_logEvent_other (s : ExpState) (e ev : String) (hne : e ≠ ev) :
    countEvent (logEvent s e).eventLog ev = countEvent s.eventLog ev := by
  show countEvent (s.eventLog ++ [(s.currentSection, e)]) ev = _
  rw [countEvent_append_single, if_neg hne, Nat.add_zero]

lemma countEvent_logEvent_same (s : ExpState) (ev : String) :
    countEvent (logEvent s ev).eventLog ev = countEvent s.eventLog ev + 1 := by
  show countEvent (s.eventLog ++ [(s.currentSection, ev)]) ev = _
  rw [countEvent_append_single, if_pos rfl]

lemma countTermination_logEvent_other (s : ExpState) (e : String)
    (hne : e ≠ "SectionStop") :
    countTermination (logEvent s e).eventLog =
      countTermination s.eventLog := by
  show countTermination (s.eventLog ++ [(s.currentSection, e)]) = _
  rw [countTermination_append_single, if_neg (fun hc => hne hc.2),
    Nat.add_zero]

lemma countTermination_logEvent_stop (s : ExpState) :
    countTermination (logEvent s "SectionStop").eventLog =
      countTermination s.eventLog +
        (if s.currentSection = 2 then 1 else 0) := by
  show countTermination (s.eventLog ++ [(s.currentSection, "SectionStop")]) = _
  rw [countTermination_append_single]
  by_cases h : s.currentSection = 2 <;> simp [h]

/-- The sequencing invariant: the break path has been entered at most
once, and if it has then either the break timer is still pending with the
main timer stopped, or the session has already switched to the second
block; the termination record has been written at most once, and if so the
`experiment_ended` latch is set; and the section number tracks the active
block. -/
def SeqInv (s : ExpState) : Prop :=
  countEvent s.eventLog "BreakStart" ≤ 1 ∧
  (countEvent s.eventLog "BreakStart" = 1 →
    (s.breakPending = true ∧ s.timerRunning = false) ∨
      s.usingArray2 = true) ∧
  countTermination s.eventLog ≤ 1 ∧
  (countTermination s.eventLog = 1 → s.experimentEnded = true) ∧
  (s.currentSection = 2 ↔ s.usingArray2 = true)

lemma seqInv_logEvent_other (s : ExpState) (e : String)
    (hb : e ≠ "BreakStart") (hs : e ≠ "SectionStop") (h : SeqInv s) :
    SeqInv (logEvent s e) := by
  obtain ⟨h1, h2, h3, h4, h5⟩ := h
  refine ⟨?_, ?_, ?_, ?_, h5⟩
  · rw [countEvent_logEvent_other s e _ hb]; exact h1
  · rw [countEvent_logEvent_other s e _ hb]
    intro hc; exact h2 hc
  · rw [countTermination_logEvent_other s e hs]; exact h3
  · rw [countTermination_logEvent_other s e hs]
    intro hc; exact h4 hc

lemma seqInv_stop_experiment (s : ExpState) (h : SeqInv s) :
    SeqInv (stop_experiment s) := by
  obtain ⟨h1, h2, h3, h4, h5⟩ := h
  unfold stop_experiment
  split_ifs with hg
  · exact ⟨h1, h2, h3, h4, h5⟩
  · push_neg at hg
    obtain ⟨hrun, hend⟩ := hg
    have hendf : s.experimentEnded = false := by
      cases hE : s.experimentEnded
      · rfl
      · exact absurd hE hend
    refine ⟨?_, ?_, ?_, ?_, h5⟩
    · show countEvent (logEvent s "SectionStop").eventLog "BreakStart" ≤ 1
      rw [countEvent_logEvent_other s _ _ (by decide)]
      exact h1
    · show countEvent (logEvent s "SectionStop").eventLog "BreakStart" = 1 → _
      rw [countEvent_logEvent_other s _ _ (by decide)]
      intro hc
      rcases h2 hc with ⟨hp, -⟩ | hu
      · exact Or.inl ⟨hp, rfl⟩
      · exact Or.inr hu
    · show countTermination (logEvent s "SectionStop").eventLog ≤ 1
      rw [countTermination_logEvent_stop]
      by_cases hsec : s.currentSection = 2
      · rw [if_pos hsec]
        have hzero : countTermination s.eventLog = 0 := by
          rcases Nat.eq_or_lt_of_le h3 with heq | hlt
          · have : s.experimentEnded = true := h4 heq
            rw [hendf] at this
            exact absurd this (by decide)
          · omega
        omega
      · rw [if_neg hsec]
        omega
    · intro _; rfl

lemma seqInv_start_trial (s : ExpState) (h : SeqInv s) :
    SeqInv (start_trial s) := by
  unfold start_trial
  split_ifs with hg
  · exact h
  · have h2 := seqInv_logEvent_other s "TrialStart" (by decide) (by decide) h
    obtain ⟨g1, g2, g3, g4, g5⟩ := h2
    exact ⟨g1, g2, g3, g4, g5⟩

lemma seqInv_start_break (s : ExpState)
    (hzero : countEvent s.eventLog "BreakStart" = 0)
    (hsec : s.currentSection ≠ 2) (h : SeqInv s) :
    SeqInv (start_break s) := by
  obtain ⟨h1, h2, h3, h4, h5⟩ := h
  refine ⟨?_, ?_, ?_, ?_, h5⟩
  · show countEvent
      (logEvent (logEvent s "SectionStop") "BreakStart").eventLog
        "BreakStart" ≤ 1
    rw [countEvent_logEvent_same, countEvent_logEvent_other s _ _ (by decide),
      hzero]
  · intro _
    exact Or.inl ⟨rfl, rfl⟩
  · show countTermination
      (logEvent (logEvent s "SectionStop") "BreakStart").eventLog ≤ 1
    rw [countTermination_logEvent_other _ _ (by decide),
      countTermination_logEvent_stop, if_neg hsec]
    omega
  · show countTermination
      (logEvent (logEvent s "SectionStop") "BreakStart").eventLog = 1 → _
    rw [countTermination_logEvent_other _ _ (by decide),
      countTermination_logEvent_stop, if_neg hsec]
    intro hc
    exact h4 (by omega)

lemma seqInv_update_plot (s : ExpState) (now : ℚ) (ok : Bool)
    (ht : s.timerRunning = true) (h : SeqInv s) :
    SeqInv (update_plot s now ok) := by
  obtain ⟨h1, h2, h3, h4, h5⟩ := h
  simp only [update_plot]
  split_ifs with hrun hok hdur hlen huse
  · exact ⟨h1, h2, h3, h4, h5⟩
  · exact ⟨h1, h2, h3, h4, h5⟩
  · -- first block completed its last trial: enter the break
    have hs1 : SeqInv { s with timeElapsed := now } := ⟨h1, h2, h3, h4, h5⟩
    have hs3 : SeqInv (logEvent { s with timeElapsed := now } "TrialEnd") :=
      seqInv_logEvent_other _ "TrialEnd" (by decide) (by decide) hs1
    have huse2 : s.usingArray2 = false := huse
    have hzero : countEvent s.eventLog "BreakStart" = 0 := by
      rcases Nat.eq_or_lt_of_le h1 with heq | hlt
      · rcases h2 heq with ⟨-, htf⟩ | hu
        · rw [ht] at htf
          exact absurd htf (by decide)
        · rw [huse2] at hu
          exact absurd hu (by decide)
      · omega
    have hsec : s.currentSection ≠ 2 := by
      intro hc
      have hu := h5.mp hc
      rw [huse2] at hu
      exact absurd hu (by decide)
    exact seqInv_start_break _
      (by
        show countEvent
          (s.eventLog ++ [(s.currentSection, "TrialEnd")]) "BreakStart" = 0
        rw [countEvent_append_single, if_neg (by decide), hzero])
      hsec hs3
  · -- second block completed its last trial: stop the experiment
    have hs1 : SeqInv { s with timeElapsed := now } := ⟨h1, h2, h3, h4, h5⟩
    exact seqInv_stop_experiment _
      (seqInv_logEvent_other _ "TrialEnd" (by decide) (by decide) hs1)
  · -- ordinary trial completion: start the next trial
    have hs1 : SeqInv { s with timeElapsed := now } := ⟨h1, h2, h3, h4, h5⟩
    exact seqInv_start_trial _
      (seqInv_logEvent_other _ "TrialEnd" (by decide) (by decide) hs1)
  · exact ⟨h1, h2, h3, h4, h5⟩

lemma seqInv_tick (s : ExpState) (now : ℚ) (ok : Bool) (h : SeqInv s) :
    SeqInv (tick s now ok) := by
  unfold tick
  split_ifs with ht
  · exact seqInv_update_plot s now ok ht h
  · exact h

lemma seqInv_runTicks (l : List (ℚ × Bool)) :
    ∀ s : ExpState, SeqInv s → SeqInv (runTicks s l) := by
  induction l with
  | nil => intro s h; exact h
  | cons p rest ih =>
    intro s h
    exact ih (tick s p.1 p.2) (seqInv_tick s p.1 p.2 h)

lemma seqInv_break_fire (s : ExpState) (h : SeqInv s) :
    SeqInv (break_fire s) ∧
      (countEvent (break_fire s).eventLog "BreakStart" = 1 →
        (break_fire s).usingArray2 = true) := by
  obtain ⟨h1, h2, h3, h4, h5⟩ := h
  unfold break_fire
  split_ifs with hp
  · constructor
    · refine ⟨?_, ?_, ?_, ?_, ?_⟩
      · show countEvent (logEvent s "BreakStop").eventLog "BreakStart" ≤ 1
        rw [countEvent_logEvent_other s _ _ (by decide)]
        exact h1
      · intro _
        exact Or.inr rfl
      · show countTermination (logEvent s "BreakStop").eventLog ≤ 1
        rw [countTermination_logEvent_other s _ (by decide)]
        exact h3
      · show countTermination (logEvent s "BreakStop").eventLog = 1 → _
        rw [countTermination_logEvent_other s _ (by decide)]
        intro hc; exact h4 hc
      · exact ⟨fun _ => rfl, fun _ => rfl⟩
    · intro _; rfl
  · refine ⟨⟨h1, h2, h3, h4, h5⟩, ?_⟩
    intro hc
    rcases h2 hc with ⟨hpend, -⟩ | hu
    · exact absurd hpend hp
    · exact hu

lemma seqInv_start_experiment (s : ExpState) (h : SeqInv s)
    (hbreak : countEvent s.eventLog "BreakStart" = 1 →
      s.usingArray2 = true) :
    SeqInv (start_experiment s) := by
  obtain ⟨h1, h2, h3, h4, h5⟩ := h
  refine ⟨?_, ?_, ?_, ?_, h5⟩
  · show countEvent (logEvent s "SectionStart").eventLog "BreakStart" ≤ 1
    rw [countEvent_logEvent_other s _ _ (by decide)]
    exact h1
  · show countEvent (logEvent s "SectionStart").eventLog "BreakStart" = 1 → _
    rw [countEvent_logEvent_other s _ _ (by decide)]
    intro hc
    exact Or.inr (hbreak hc)
  · show countTermination (logEvent s "SectionStart").eventLog ≤ 1
    rw [countTermination_logEvent_other s _ (by decide)]
    exact h3
  · show countTermination (logEvent s "SectionStart").eventLog = 1 → _
    rw [countTermination_logEvent_other s _ (by decide)]
    intro hc; exact h4 hc

lemma seqInv_init (a1 a2 : List String) : SeqInv (initState a1 a2) := by
  refine ⟨?_, ?_, ?_, ?_, ?_⟩ <;>
    simp [initState, countEvent, countTermination]

/-- The canonical complete-block tick schedule: one tick at each multiple
of 30 seconds for 60 trial completions, followed by two extra ticks after
the final completion. -/
def canonTicks : List (ℚ × Bool) :=
  ((List.range 60).map (fun k => (((k : ℚ) + 1) * 30, true))) ++
    [(1830, true), (1860, true)]

attribute [local semireducible] Rat.sub Rat.add Rat.mul in
set_option maxRecDepth 100000 in
/-- C4: in every session — whatever the trial arrays and however many
timer ticks fire, at whatever times, including ticks after a completion —
the break path is entered at most once and a session-termination record
(`SectionStop` in section 2) is written at most once; and on the canonical
schedule that completes both 60-trial blocks (with extra ticks after each
block's 60th completion), the break is entered exactly once and the
termination record is written exactly once. -/
theorem trial_sequencer_break_and_termination (a1 a2 : List String)
    (t1 t2 : List (ℚ × Bool)) :
    countEvent (runSession a1 a2 t1 t2).eventLog "BreakStart" ≤ 1 ∧
    countTermination (runSession a1 a2 t1 t2).eventLog ≤ 1 ∧
    countEvent (runSession trialConditions trialConditions canonTicks
      canonTicks).eventLog "BreakStart" = 1 ∧
    countTermination (runSession trialConditions trialConditions canonTicks
      canonTicks).eventLog = 1 := by
  have hfinal : SeqInv (runSession a1 a2 t1 t2) := by
    have h0 := seqInv_init a1 a2
    have h1 := seqInv_start_experiment _ h0
      (fun hc => absurd hc (by simp [initState, countEvent]))
    have h2 := seqInv_runTicks t1 _ h1
    obtain ⟨h3, h3b⟩ := seqInv_break_fire _ h2
    have h4 := seqInv_start_experiment _ h3 h3b
    exact seqInv_runTicks t2 _ h4
  exact ⟨hfinal.1, hfinal.2.2.1, by decide, by decide⟩

end ForceMeasurement
